import Mathlib

/-!
Shallow embedding of two JupyterLab front-end modules:

* `packages/apputils/src/thememanager.ts` — the `ThemeManager` class
  (CSS override validation and loading, theme registration, the
  settings-loading retry loop, stylesheet swapping, font-size stepping);
* `packages/htmlviewer/src/index.ts` — the `HTMLViewer` widget
  (sandboxed iframe, debounced re-rendering via blob object URLs).

JavaScript objects used as string-keyed maps are embedded as association
lists (`Dict`); browser-generated blob object URLs are embedded as opaque
natural-number handles handed out by a fresh counter; `CSS.supports` is an
oracle parameter.
-/

namespace JupyterLab

/-! ## JS objects as association lists -/

/-- A JS object used as a string-keyed dictionary. -/
abbrev Dict (α : Type) := List (String × α)

/-- Property read `d[k]`: the first entry with key `k`, if any. -/
def dlookup {α : Type} (d : Dict α) (k : String) : Option α :=
  (d.find? (fun e => e.1 == k)).map Prod.snd

/-- Property write `d[k] = v`: replace the entry in place, or append. -/
def dinsert {α : Type} (d : Dict α) (k : String) (v : α) : Dict α :=
  match d with
  | [] => [(k, v)]
  | e :: es => if e.1 == k then (k, v) :: es else e :: dinsert es k v

/-- Property removal `delete d[k]`. -/
def derase {α : Type} (d : Dict α) (k : String) : Dict α :=
  d.filter (fun e => e.1 != k)

theorem dlookup_nil {α : Type} (k : String) : dlookup ([] : Dict α) k = none := rfl

theorem dlookup_cons {α : Type} (e : String × α) (es : Dict α) (k : String) :
    dlookup (e :: es) k = if e.1 == k then some e.2 else dlookup es k := by
  simp only [dlookup, List.find?]
  cases h : (e.1 == k) <;> simp [h]

theorem dlookup_dinsert_self {α : Type} (d : Dict α) (k : String) (v : α) :
    dlookup (dinsert d k v) k = some v := by
  induction d with
  | nil => simp [dinsert, dlookup_cons]
  | cons e es ih =>
    by_cases h : e.1 == k
    · simp [dinsert, h, dlookup_cons]
    · simp only [dinsert, h, if_false, Bool.false_eq_true]
      rw [dlookup_cons]
      simp [h, ih]

theorem dlookup_dinsert_ne {α : Type} (d : Dict α) (k k' : String) (v : α)
    (h : k ≠ k') : dlookup (dinsert d k v) k' = dlookup d k' := by
  induction d with
  | nil => simp [dinsert, dlookup_cons, dlookup_nil, h]
  | cons e es ih =>
    by_cases he : e.1 == k
    · have he' : e.1 = k := eq_of_beq he
      simp [dinsert, he, dlookup_cons, he', h]
    · simp only [dinsert, he, if_false, Bool.false_eq_true]
      rw [dlookup_cons, dlookup_cons, ih]

theorem derase_cons {α : Type} (e : String × α) (es : Dict α) (k : String) :
    derase (e :: es) k = if e.1 == k then derase es k else e :: derase es k := by
  simp only [derase, List.filter_cons, bne]
  cases h : (e.1 == k) <;> simp [h]

theorem dlookup_derase_self {α : Type} (d : Dict α) (k : String) :
    dlookup (derase d k) k = none := by
  induction d with
  | nil => rfl
  | cons e es ih =>
    rw [derase_cons]
    by_cases he : e.1 == k
    · simpa [he] using ih
    · simp only [he, if_false, Bool.false_eq_true]
      rw [dlookup_cons]
      simpa [he] using ih

theorem dlookup_derase_ne {α : Type} (d : Dict α) (k k' : String)
    (h : k ≠ k') : dlookup (derase d k) k' = dlookup d k' := by
  induction d with
  | nil => rfl
  | cons e es ih =>
    rw [derase_cons]
    by_cases he : e.1 == k
    · have he' : e.1 = k := eq_of_beq he
      have hk' : (e.1 == k') = false := by
        simp [he', h]
      simp only [he, if_true]
      rw [ih, dlookup_cons]
      simp [hk']
    · simp only [he, if_false, Bool.false_eq_true]
      rw [dlookup_cons, dlookup_cons, ih]

/-- If `k` is absent, JS property write appends the entry at the end. -/
theorem dinsert_of_absent {α : Type} (d : Dict α) (k : String) (v : α)
    (h : dlookup d k = none) : dinsert d k v = d ++ [(k, v)] := by
  induction d with
  | nil => rfl
  | cons e es ih =>
    rw [dlookup_cons] at h
    by_cases he : e.1 == k
    · simp [he] at h
    · simp only [dinsert, he, if_false, Bool.false_eq_true, List.cons_append,
        List.cons.injEq, true_and]
      exact ih (by simpa [he] using h)

/-- If `k` is absent, erasing `k` is the identity. -/
theorem derase_of_absent {α : Type} (d : Dict α) (k : String)
    (h : dlookup d k = none) : derase d k = d := by
  induction d with
  | nil => rfl
  | cons e es ih =>
    rw [dlookup_cons] at h
    rw [derase_cons]
    by_cases he : e.1 == k
    · simp [he] at h
    · simp only [he, if_false, Bool.false_eq_true, List.cons.injEq, true_and]
      exact ih (by simpa [he] using h)

/-! ## Timer constants

`thememanager.ts`:
`const REQUEST_INTERVAL = 75;` — milliseconds between theme loading attempts.
`const REQUEST_THRESHOLD = 20;` — number of attempts before giving up.

`htmlviewer/src/index.ts`:
`const RENDER_TIMEOUT = 1000;` — quiet time before a re-render.
-/

/-- The number of milliseconds between theme loading attempts. -/
def REQUEST_INTERVAL : Nat := 75

/-- The number of times to attempt to load a theme before giving up. -/
def REQUEST_THRESHOLD : Nat := 20

/-- The timeout to wait for change activity to have ceased before rendering. -/
def RENDER_TIMEOUT : Nat := 1000

/-! ## `ThemeManager.validateCSS`

```
const cssProps = ['color', 'font-family', 'size'];
export const validateCSS = (key, val) => {
  let prop;
  for (const p of cssProps) { if (key.includes(p)) { prop = p; break; } }
  if (!prop) { ...warn...; return false; }
  if (CSS.supports(prop, val)) { return true; } else { ...warn...; return false; }
};
```

`CSS.supports` is a browser primitive, embedded as an oracle parameter
`supports : String → String → Bool`.
-/

/-- JS `String.prototype.includes`: substring containment. -/
def jsIncludes (s sub : String) : Bool := decide (sub.toList <:+: s.toList)

/-- `cssProps` of `thememanager.ts`. -/
def cssProps : List String := ["color", "font-family", "size"]

/-- The `prop` picked by the `for` loop of `validateCSS`: the first element
of `cssProps` that `key` includes, if any. -/
def cssPropFor (key : String) : Option String :=
  cssProps.find? (fun p => jsIncludes key p)

/-- `ThemeManager.validateCSS`, parametrised over the browser's
`CSS.supports`. -/
def validateCSS (supports : String → String → Bool) (key val : String) : Bool :=
  match cssPropFor key with
  | none => false
  | some prop => supports prop val

/-! ## Themes and `ThemeManager.register`

```
register(theme) {
  const { name } = theme;
  const themes = this._themes;
  if (themes[name]) { throw new Error(`Theme already registered for ${name}`); }
  themes[name] = theme;
  return new DisposableDelegate(() => { delete themes[name]; });
}
```
-/

/-- An `IThemeManager.ITheme`: its name, lightness flag, and the CSS paths
its `load()` fetches through `loadCSS` (the repository's themes load their
stylesheets this way). -/
structure Theme where
  name : String
  isLight : Bool
  css : List String
deriving DecidableEq, Repr

/-- `ThemeManager.register`: `none` models the thrown
`Theme already registered` error; on success it returns the updated
`_themes` dictionary.  The returned disposable is `registerDispose`. -/
def register (themes : Dict Theme) (theme : Theme) : Option (Dict Theme) :=
  match dlookup themes theme.name with
  | some _ => none
  | none => some (dinsert themes theme.name theme)

/-- The disposable returned by `register`: `delete themes[name]`. -/
def registerDispose (themes : Dict Theme) (name : String) : Dict Theme :=
  derase themes name

/-! ## `ThemeManager.loadCSSOverrides`

```
loadCSSOverrides() {
  const newOverrides = (this._settings.user['overrides']) || {};
  Object.keys({ ...this._overrides, ...newOverrides }).forEach(key => {
    if (newOverrides[key]) {
      if (ThemeManager.validateCSS(key, newOverrides[key])) {
        document.documentElement.style.setProperty(`--jp-${key}`, newOverrides[key]);
      } else {
        document.documentElement.style.removeProperty(`--jp-${key}`);
      }
    } else {
      document.documentElement.style.removeProperty(`--jp-${key}`);
    }
  });
  this._overrides = newOverrides;
}
```

`document.documentElement.style` is embedded as a `Dict String` keyed by the
full custom-property name (so entry `"--jp-" ++ key`); a JS string is truthy
exactly when it is non-empty.
-/

/-- Keys of first occurrence, in order: `Object.keys` of a spread object. -/
def dedupFirst : List String → List String
  | [] => []
  | k :: ks => k :: dedupFirst (ks.filter (· != k))
termination_by l => l.length
decreasing_by
  simp only [List.length_cons]
  exact Nat.lt_succ_of_le (List.length_filter_le _ _)

/-- `Object.keys({ ...old, ...new })`: old keys first, then new keys not
already present. -/
def spreadKeys {α : Type} (old newO : Dict α) : List String :=
  dedupFirst (old.map Prod.fst ++ newO.map Prod.fst)

/-- The per-key body of the `forEach` in `loadCSSOverrides`. -/
def applyOverrideKey (supports : String → String → Bool) (newO : Dict String)
    (style : Dict String) (key : String) : Dict String :=
  match dlookup newO key with
  | some v =>
    if v ≠ "" then
      if validateCSS supports key v then dinsert style ("--jp-" ++ key) v
      else derase style ("--jp-" ++ key)
    else derase style ("--jp-" ++ key)
  | none => derase style ("--jp-" ++ key)

/-- The mutable state `loadCSSOverrides` acts on: the `_overrides` field and
the document element's inline style. -/
structure OverrideState where
  overrides : Dict String
  style : Dict String
deriving Repr

/-- `ThemeManager.loadCSSOverrides`, with `newO` standing for
`this._settings.user['overrides'] || {}`. -/
def loadCSSOverrides (supports : String → String → Bool) (newO : Dict String)
    (st : OverrideState) : OverrideState :=
  { overrides := newO,
    style := (spreadKeys st.overrides newO).foldl
      (applyOverrideKey supports newO) st.style }

theorem mem_dedupFirst : ∀ l : List String, ∀ a : String,
    a ∈ dedupFirst l ↔ a ∈ l := by
  intro l
  induction l using dedupFirst.induct with
  | case1 => simp [dedupFirst]
  | case2 k ks ih =>
    intro a
    rw [dedupFirst]
    by_cases hak : a = k
    · simp [hak]
    · simp only [List.mem_cons, hak, false_or, ih a, List.mem_filter]
      constructor
      · exact fun h => h.1
      · exact fun h => ⟨h, by simp [hak]⟩

theorem nodup_dedupFirst : ∀ l : List String, (dedupFirst l).Nodup := by
  intro l
  induction l using dedupFirst.induct with
  | case1 => simp [dedupFirst]
  | case2 k ks ih =>
    rw [dedupFirst]
    refine List.nodup_cons.mpr ⟨?_, ih⟩
    intro hk
    rw [mem_dedupFirst (a := k)] at hk
    have := (List.mem_filter.mp hk).2
    simp at this

theorem jp_prefix_inj {k k' : String} (h : "--jp-" ++ k = "--jp-" ++ k') :
    k = k' := by
  have hd : ("--jp-" ++ k).data = ("--jp-" ++ k').data := by rw [h]
  rw [String.data_append, String.data_append] at hd
  have h2 := List.append_cancel_left hd
  cases k; cases k'
  exact congrArg String.mk h2

/-- What `loadCSSOverrides` leaves at `--jp-key` according to the new
overrides: the new value if it is truthy and validates, nothing otherwise. -/
def expectedOverride (supports : String → String → Bool) (newO : Dict String)
    (key : String) : Option String :=
  match dlookup newO key with
  | none => none
  | some v =>
    if v = "" then none
    else if validateCSS supports key v then some v else none

theorem dlookup_applyOverrideKey_self (supports : String → String → Bool)
    (newO style : Dict String) (k : String) :
    dlookup (applyOverrideKey supports newO style k) ("--jp-" ++ k) =
      expectedOverride supports newO k := by
  unfold applyOverrideKey expectedOverride
  cases h : dlookup newO k with
  | none => exact dlookup_derase_self _ _
  | some v =>
    by_cases hv : v = ""
    · simp only [hv, ne_eq, not_true_eq_false, if_false, if_true]
      exact dlookup_derase_self _ _
    · simp only [ne_eq, hv, not_false_eq_true, if_true, if_false]
      by_cases hval : validateCSS supports k v
      · simp only [hval, if_true]
        exact dlookup_dinsert_self _ _ _
      · simp only [hval, if_false, Bool.false_eq_true]
        exact dlookup_derase_self _ _

theorem dlookup_applyOverrideKey_ne (supports : String → String → Bool)
    (newO style : Dict String) (k p : String) (h : p ≠ "--jp-" ++ k) :
    dlookup (applyOverrideKey supports newO style k) p = dlookup style p := by
  unfold applyOverrideKey
  cases dlookup newO k with
  | none => exact dlookup_derase_ne _ _ _ (Ne.symm h)
  | some v =>
    by_cases hv : v = ""
    · simp only [hv, ne_eq, not_true_eq_false, if_false, if_true]
      exact dlookup_derase_ne _ _ _ (Ne.symm h)
    · simp only [ne_eq, hv, not_false_eq_true, if_true, if_false]
      by_cases hval : validateCSS supports k v
      · simp only [hval, if_true]
        exact dlookup_dinsert_ne _ _ _ _ (Ne.symm h)
      · simp only [hval, if_false, Bool.false_eq_true]
        exact dlookup_derase_ne _ _ _ (Ne.symm h)

theorem foldl_applyOverrideKey_not_mem (supports : String → String → Bool)
    (newO : Dict String) (k : String) :
    ∀ (keys : List String) (style : Dict String), k ∉ keys →
    dlookup (keys.foldl (applyOverrideKey supports newO) style) ("--jp-" ++ k) =
      dlookup style ("--jp-" ++ k) := by
  intro keys
  induction keys with
  | nil => intro style _; rfl
  | cons k0 ks ih =>
    intro style h
    rw [List.foldl_cons, ih _ (fun hk => h (List.mem_cons_of_mem _ hk))]
    exact dlookup_applyOverrideKey_ne supports newO style k0 _
      (fun he => h (by rw [jp_prefix_inj he]; exact List.mem_cons_self _ _))

theorem foldl_applyOverrideKey_mem (supports : String → String → Bool)
    (newO : Dict String) (k : String) :
    ∀ (keys : List String) (style : Dict String), keys.Nodup → k ∈ keys →
    dlookup (keys.foldl (applyOverrideKey supports newO) style) ("--jp-" ++ k) =
      expectedOverride supports newO k := by
  intro keys
  induction keys with
  | nil => intro style _ h; cases h
  | cons k0 ks ih =>
    intro style hn hk
    rw [List.foldl_cons]
    rcases List.mem_cons.mp hk with rfl | hmem
    · rw [foldl_applyOverrideKey_not_mem supports newO k ks _
        (List.nodup_cons.mp hn).1]
      exact dlookup_applyOverrideKey_self supports newO style k
    · exact ih _ (List.nodup_cons.mp hn).2 hmem

/-! ## `ThemeManager._loadSettings`

```
private _loadSettings(): void {
  const outstanding = this._outstanding;
  const pending = this._pending;
  const requests = this._requests;
  if (pending) { window.clearTimeout(pending); this._pending = 0; }
  const theme = settings.composite['theme'] as string;
  if (outstanding) {
    outstanding.then(() => { this._loadSettings(); })
               .catch(() => { this._loadSettings(); });
    this._outstanding = null;
    return;
  }
  requests[theme] = requests[theme] ? requests[theme] + 1 : 1;
  if (themes[theme]) {
    this._outstanding = this._loadTheme(theme);
    delete requests[theme];
    return;
  }
  if (requests[theme] > REQUEST_THRESHOLD) {
    const fallback = settings.default('theme') as string;
    delete requests[theme];
    if (!themes[fallback]) { this._onError(...); return; }
    this._outstanding = this._loadTheme(fallback);
    return;
  }
  this._pending = window.setTimeout(() => { this._loadSettings(); }, REQUEST_INTERVAL);
}
```
-/

/-- The observable outcome of one invocation of `_loadSettings`. -/
inductive LoadResult where
  /-- An outstanding promise: re-invoke once it settles. -/
  | deferred
  /-- `this._outstanding = this._loadTheme(theme)`. -/
  | loadTheme (name : String)
  /-- Gave up and loaded the registered default theme. -/
  | loadFallback (name : String)
  /-- `this._onError`: neither the theme nor the default loaded. -/
  | themeError
  /-- `window.setTimeout(() => this._loadSettings(), REQUEST_INTERVAL)`. -/
  | retry
deriving DecidableEq, Repr

/-- The fields of `ThemeManager` that `_loadSettings` reads and writes:
`_requests`, whether `_outstanding` is non-null, whether `_pending` is a
live timer handle. -/
structure LoadState where
  requests : Dict Nat
  outstanding : Bool
  pending : Bool
deriving DecidableEq, Repr

/-- One invocation of `_loadSettings`, for a fixed registry `themes`,
default theme name `fallback` and requested theme name `theme`. -/
def loadSettingsStep (themes : Dict Theme) (fallback theme : String)
    (s : LoadState) : LoadState × LoadResult :=
  let s := if s.pending then { s with pending := false } else s
  if s.outstanding then ({ s with outstanding := false }, .deferred)
  else
    let count := (dlookup s.requests theme).getD 0 + 1
    let reqs := dinsert s.requests theme count
    if (dlookup themes theme).isSome then
      ({ s with requests := derase reqs theme, outstanding := true },
        .loadTheme theme)
    else if REQUEST_THRESHOLD < count then
      if (dlookup themes fallback).isSome then
        ({ s with requests := derase reqs theme, outstanding := true },
          .loadFallback fallback)
      else ({ s with requests := derase reqs theme }, .themeError)
    else ({ s with requests := reqs, pending := true }, .retry)

/-- Run the `_loadSettings` loop for at most `n` invocations, following the
self-re-invocations (`retry` timeouts and `deferred` promise callbacks);
`none` means the loop is still going after `n` invocations. -/
def runLoad (themes : Dict Theme) (fallback theme : String) :
    Nat → LoadState → Option (LoadState × LoadResult)
  | 0, _ => none
  | n + 1, s =>
    match loadSettingsStep themes fallback theme s with
    | (s', .retry) => runLoad themes fallback theme n s'
    | (s', .deferred) => runLoad themes fallback theme n s'
    | (s', r) => some (s', r)

/-- The number of `retry` timeouts scheduled within the first `n`
invocations of the `_loadSettings` loop. -/
def countRetries (themes : Dict Theme) (fallback theme : String) :
    Nat → LoadState → Nat
  | 0, _ => 0
  | n + 1, s =>
    match loadSettingsStep themes fallback theme s with
    | (s', .retry) => countRetries themes fallback theme n s' + 1
    | (s', .deferred) => countRetries themes fallback theme n s'
    | _ => 0

theorem loadSettingsStep_retry (themes : Dict Theme) (fallback theme : String)
    (s : LoadState) (hth : dlookup themes theme = none)
    (ho : s.outstanding = false)
    (hc : (dlookup s.requests theme).getD 0 + 1 ≤ REQUEST_THRESHOLD) :
    loadSettingsStep themes fallback theme s =
      (⟨dinsert s.requests theme ((dlookup s.requests theme).getD 0 + 1),
        false, true⟩, .retry) := by
  rcases s with ⟨reqs, o, p⟩
  cases ho
  have hnotlt : ¬ REQUEST_THRESHOLD < (dlookup reqs theme).getD 0 + 1 :=
    Nat.not_lt.mpr hc
  cases p <;> simp [loadSettingsStep, hth, hnotlt]

theorem loadSettingsStep_giveup (themes : Dict Theme) (fallback theme : String)
    (s : LoadState) (hth : dlookup themes theme = none)
    (ho : s.outstanding = false)
    (hc : REQUEST_THRESHOLD < (dlookup s.requests theme).getD 0 + 1) :
    ∃ s', loadSettingsStep themes fallback theme s =
        (s', if (dlookup themes fallback).isSome then
          LoadResult.loadFallback fallback else LoadResult.themeError) ∧
      dlookup s'.requests theme = none := by
  rcases s with ⟨reqs, o, p⟩
  cases ho
  cases hfb : (dlookup themes fallback).isSome with
  | false =>
    refine ⟨⟨derase (dinsert reqs theme ((dlookup reqs theme).getD 0 + 1))
      theme, false, false⟩, ?_, dlookup_derase_self _ _⟩
    cases p <;> simp [loadSettingsStep, hth, hc, hfb]
  | true =>
    refine ⟨⟨derase (dinsert reqs theme ((dlookup reqs theme).getD 0 + 1))
      theme, true, false⟩, ?_, dlookup_derase_self _ _⟩
    cases p <;> simp [loadSettingsStep, hth, hc, hfb]

theorem runLoad_still_running (themes : Dict Theme) (fallback theme : String)
    (hth : dlookup themes theme = none) :
    ∀ (n : Nat) (s : LoadState), s.outstanding = false →
    (dlookup s.requests theme).getD 0 + n ≤ REQUEST_THRESHOLD →
    runLoad themes fallback theme n s = none := by
  intro n
  induction n with
  | zero => intro s _ _; rfl
  | succ n ih =>
    intro s ho hc
    have hstep := loadSettingsStep_retry themes fallback theme s hth ho
      (by omega)
    rw [runLoad, hstep]
    refine ih _ rfl ?_
    show (dlookup (dinsert s.requests theme
      ((dlookup s.requests theme).getD 0 + 1)) theme).getD 0 + n ≤
        REQUEST_THRESHOLD
    rw [dlookup_dinsert_self]
    simp only [Option.getD_some]
    omega

theorem runLoad_gives_up (themes : Dict Theme) (fallback theme : String)
    (hth : dlookup themes theme = none) :
    ∀ (n : Nat) (s : LoadState), s.outstanding = false → 1 ≤ n →
    REQUEST_THRESHOLD + 1 ≤ (dlookup s.requests theme).getD 0 + n →
    ∃ s', runLoad themes fallback theme n s =
        some (s', if (dlookup themes fallback).isSome then
          LoadResult.loadFallback fallback else LoadResult.themeError) ∧
      dlookup s'.requests theme = none := by
  intro n
  induction n with
  | zero => intro s _ h1 _; exact absurd h1 (by omega)
  | succ n ih =>
    intro s ho _ hc
    by_cases hbig : REQUEST_THRESHOLD < (dlookup s.requests theme).getD 0 + 1
    · obtain ⟨s', hstep, hreq⟩ :=
        loadSettingsStep_giveup themes fallback theme s hth ho hbig
      refine ⟨s', ?_, hreq⟩
      rw [runLoad, hstep]
      cases hfb : (dlookup themes fallback).isSome <;> simp [hfb]
    · push_neg at hbig
      have hstep := loadSettingsStep_retry themes fallback theme s hth ho hbig
      rw [runLoad, hstep]
      refine ih _ rfl (by omega) ?_
      show REQUEST_THRESHOLD + 1 ≤ (dlookup (dinsert s.requests theme
        ((dlookup s.requests theme).getD 0 + 1)) theme).getD 0 + n
      rw [dlookup_dinsert_self]
      simp only [Option.getD_some]
      omega

theorem countRetries_min (themes : Dict Theme) (fallback theme : String)
    (hth : dlookup themes theme = none) :
    ∀ (n : Nat) (s : LoadState), s.outstanding = false →
    countRetries themes fallback theme n s =
      min n (REQUEST_THRESHOLD - (dlookup s.requests theme).getD 0) := by
  intro n
  induction n with
  | zero => intro s _; simp [countRetries]
  | succ n ih =>
    intro s ho
    by_cases hbig : REQUEST_THRESHOLD < (dlookup s.requests theme).getD 0 + 1
    · obtain ⟨s', hstep, _⟩ :=
        loadSettingsStep_giveup themes fallback theme s hth ho hbig
      rw [countRetries, hstep]
      have hz : REQUEST_THRESHOLD - (dlookup s.requests theme).getD 0 = 0 :=
        Nat.sub_eq_zero_of_le (by omega)
      rw [hz, Nat.min_zero]
      cases hfb : (dlookup themes fallback).isSome <;> simp [hfb]
    · push_neg at hbig
      have hstep := loadSettingsStep_retry themes fallback theme s hth ho hbig
      rw [countRetries, hstep]
      have hrec : countRetries themes fallback theme n
          ⟨dinsert s.requests theme ((dlookup s.requests theme).getD 0 + 1),
            false, true⟩ =
          min n (REQUEST_THRESHOLD -
            ((dlookup s.requests theme).getD 0 + 1)) := by
        rw [ih _ rfl]
        rw [show (dlookup (dinsert s.requests theme
          ((dlookup s.requests theme).getD 0 + 1)) theme).getD 0 =
            (dlookup s.requests theme).getD 0 + 1 by
          rw [dlookup_dinsert_self]; rfl]
      show countRetries themes fallback theme n _ + 1 = _
      rw [hrec]
      rw [show REQUEST_THRESHOLD - (dlookup s.requests theme).getD 0 =
        (REQUEST_THRESHOLD - ((dlookup s.requests theme).getD 0 + 1)) + 1 by
          omega]
      rw [Nat.succ_min_succ]

/-! ## `ThemeManager.loadCSS` and `_loadTheme` stylesheet swapping

```
loadCSS(path) {
  const href = URLExt.isLocal(path) ? URLExt.join(base, path) : path;
  ...
  const link = document.createElement('link');
  ... link.setAttribute('href', href); ...
  document.body.appendChild(link);
  links.push(link);
}

private _loadTheme(theme) {
  ...
  links.forEach(link => {
    if (link.parentElement) { link.parentElement.removeChild(link); }
  });
  links.length = 0;
  const old = current ? themes[current].unload() : Promise.resolve();
  return Promise.all([old, themes[theme].load()]).then(...)
}
```

A `<link>` element is embedded as an id (object identity, handed out by a
fresh counter) plus its `href`; the document body's stylesheet children as a
list of such elements.  `URLExt.isLocal`/`URLExt.join` live in an external
package, so href resolution is an oracle `resolve`.  A theme's `load()`
fetches its stylesheets through `loadCSS`, one call per CSS path.
-/

/-- A stylesheet `<link>` element created by `loadCSS`. -/
structure LinkElem where
  id : Nat
  href : String
deriving DecidableEq, Repr

/-- The state `loadCSS`/`_loadTheme` act on: the fresh-element counter, the
document's appended stylesheet links, and the manager's `_links` array. -/
structure LinkState where
  nextId : Nat
  doc : List LinkElem
  links : List LinkElem
deriving Repr

/-- `ThemeManager.loadCSS`: create a link element for the resolved href,
append it to `document.body`, and push it onto `this._links`. -/
def loadCSS (resolve : String → String) (path : String) (st : LinkState) :
    LinkState :=
  let link : LinkElem := ⟨st.nextId, resolve path⟩
  { nextId := st.nextId + 1,
    doc := st.doc ++ [link],
    links := st.links ++ [link] }

/-- `ThemeManager._loadTheme`, restricted to its stylesheet bookkeeping:
remove every tracked link from the document, empty `_links`
(`links.length = 0`), then let the new theme's `load()` fetch its CSS
files through `loadCSS`. -/
def loadThemeLinks (resolve : String → String) (css : List String)
    (st : LinkState) : LinkState :=
  let cleared : LinkState :=
    { st with
      doc := st.doc.filter (fun l => !(st.links.contains l))
      links := [] }
  css.foldl (fun s p => loadCSS resolve p s) cleared

theorem foldl_loadCSS_links (resolve : String → String) :
    ∀ (css : List String) (st : LinkState),
    (css.foldl (fun s p => loadCSS resolve p s) st).links.map LinkElem.href =
      st.links.map LinkElem.href ++ css.map resolve := by
  intro css
  induction css with
  | nil => intro st; simp
  | cons p ps ih =>
    intro st
    rw [List.foldl_cons, ih]
    simp [loadCSS]

theorem foldl_loadCSS_doc_mem (resolve : String → String) :
    ∀ (css : List String) (st : LinkState) (l : LinkElem),
    l ∈ (css.foldl (fun s p => loadCSS resolve p s) st).doc →
    l ∈ st.doc ∨ st.nextId ≤ l.id := by
  intro css
  induction css with
  | nil => intro st l h; exact Or.inl h
  | cons p ps ih =>
    intro st l h
    rw [List.foldl_cons] at h
    rcases ih _ l h with hmem | hid
    · rcases List.mem_append.mp hmem with hd | hnew
      · exact Or.inl hd
      · right
        rw [List.mem_singleton.mp hnew]
    · exact Or.inr (Nat.le_of_succ_le hid)

/-! ## `HTMLViewer` (`packages/htmlviewer/src/index.ts`)

```
constructor(options) {
  super({ ...options,
    content: new IFrame({ sandbox: true, exceptions: ['allow-same-origin'] }) });
  ...
  this.context.ready.then(() => {
    this.update();
    this._monitor = new ActivityMonitor({
      signal: this.context.model.contentChanged, timeout: RENDER_TIMEOUT });
    this._monitor.activityStopped.connect(this.update, this);
  });
}

private async _renderModel() {
  let data = this.context.model.toString();
  data = await this._setBase(data);
  const blob = new Blob([data], { type: 'text/html' });
  const oldUrl = this._objectUrl;
  this._objectUrl = URL.createObjectURL(blob);
  this.content.url = this._objectUrl;
  if (oldUrl) { try { URL.revokeObjectURL(oldUrl); } catch { } }
}
```

Browser-generated blob object URLs are opaque, pairwise-distinct strings;
they are embedded as `Nat` handles issued by a fresh counter (`none` stands
for the initial `''`).
-/

/-- The `IFrame` widget of `@jupyterlab/apputils`, as configured by its
constructor options: sandboxing flag, sandbox exceptions, current url. -/
structure IFrame where
  sandbox : Bool
  exceptions : List String
  url : Option Nat
deriving DecidableEq, Repr

/-- The `HTMLViewer` widget state: its `content` iframe, `_objectUrl`,
`_renderPending`, the urls passed to `URL.revokeObjectURL`, and the
fresh-handle counter standing for `URL.createObjectURL`. -/
structure HTMLViewer where
  content : IFrame
  objectUrl : Option Nat
  renderPending : Bool
  revoked : List Nat
  nextUrl : Nat
deriving Repr

namespace HTMLViewer

/-- The `HTMLViewer` constructor:
`new IFrame({ sandbox: true, exceptions: ['allow-same-origin'] })`. -/
def create : HTMLViewer :=
  { content :=
      { sandbox := true
        exceptions := ["allow-same-origin"]
        url := none }
    objectUrl := none
    renderPending := false
    revoked := []
    nextUrl := 0 }

/-- `HTMLViewerFactory.createNewWidget`: `new HTMLViewer({ context })`. -/
def createNewWidget : HTMLViewer := create

/-- `HTMLViewer._renderModel`: create a blob for the current model text,
make a fresh object URL for it, swap it in as the iframe's url, and revoke
the previous object URL if there was one. -/
def renderModel (v : HTMLViewer) : HTMLViewer :=
  let newUrl := v.nextUrl
  let oldUrl := v.objectUrl
  { v with
    objectUrl := some newUrl
    content := { v.content with url := some newUrl }
    nextUrl := v.nextUrl + 1
    revoked := match oldUrl with
      | some u => v.revoked ++ [u]
      | none => v.revoked }

/-- `HTMLViewer.onUpdateRequest`: skip if a render is pending, otherwise
set `_renderPending`, render, and clear `_renderPending` when done. -/
def onUpdateRequest (v : HTMLViewer) : HTMLViewer :=
  if v.renderPending then v
  else { renderModel { v with renderPending := true } with
    renderPending := false }

end HTMLViewer

/-- Modelled from the spec: the `ActivityMonitor` of
`@jupyterlab/coreutils` (not part of this repository fragment) watches the
`contentChanged` signal with `timeout: RENDER_TIMEOUT` and emits
`activityStopped` once change activity has ceased for the timeout; each
change event restarts the timer.  Given the strictly increasing change
times, these are the emission times. -/
def fireTimes : List Nat → List Nat
  | [] => []
  | [e] => [e + RENDER_TIMEOUT]
  | e :: e' :: rest =>
    if e + RENDER_TIMEOUT ≤ e' then
      (e + RENDER_TIMEOUT) :: fireTimes (e' :: rest)
    else fireTimes (e' :: rest)

theorem fireTimes_quiet : ∀ es : List Nat, es.Pairwise (· < ·) →
    ∀ t ∈ fireTimes es, ∃ e ∈ es, t = e + RENDER_TIMEOUT ∧
      ∀ e' ∈ es, ¬(e < e' ∧ e' < t) := by
  intro es
  induction es using fireTimes.induct with
  | case1 =>
    intro _ t ht
    simp [fireTimes] at ht
  | case2 e =>
    intro _ t ht
    rw [fireTimes] at ht
    refine ⟨e, List.mem_singleton_self e, List.mem_singleton.mp ht, ?_⟩
    intro e' he'
    rw [List.mem_singleton.mp he']
    exact fun h => lt_irrefl e h.1
  | case3 e e' rest hle ih =>
    intro hp t ht
    have hp' : (e' :: rest).Pairwise (· < ·) := (List.pairwise_cons.mp hp).2
    have he_lt : ∀ x ∈ e' :: rest, e < x := (List.pairwise_cons.mp hp).1
    rw [fireTimes, if_pos hle] at ht
    rcases List.mem_cons.mp ht with rfl | htail
    · refine ⟨e, List.mem_cons_self e _, rfl, ?_⟩
      intro x hx h
      rcases List.mem_cons.mp hx with rfl | hxtail
      · exact absurd h.1 (lt_irrefl _)
      · have hex : e' ≤ x := by
          rcases List.mem_cons.mp hxtail with rfl | hxr
          · exact le_refl x
          · exact le_of_lt ((List.pairwise_cons.mp hp').1 x hxr)
        have hx2 := h.2
        omega
    · obtain ⟨e0, he0, rfl, hq⟩ := ih hp' t htail
      refine ⟨e0, List.mem_cons_of_mem e he0, rfl, ?_⟩
      intro x hx
      rcases List.mem_cons.mp hx with rfl | hxtail
      · exact fun h => absurd (he_lt e0 he0) (not_lt_of_gt h.1)
      · exact hq x hxtail
  | case4 e e' rest hgt ih =>
    intro hp t ht
    have hp' : (e' :: rest).Pairwise (· < ·) := (List.pairwise_cons.mp hp).2
    have he_lt : ∀ x ∈ e' :: rest, e < x := (List.pairwise_cons.mp hp).1
    rw [fireTimes, if_neg hgt] at ht
    obtain ⟨e0, he0, rfl, hq⟩ := ih hp' t ht
    refine ⟨e0, List.mem_cons_of_mem e he0, rfl, ?_⟩
    intro x hx
    rcases List.mem_cons.mp hx with rfl | hxtail
    · exact fun h => absurd (he_lt e0 he0) (not_lt_of_gt h.1)
    · exact hq x hxtail

/-! ## `ThemeManager._incrFontSize`

```
private _incrFontSize(key, add = true) {
  const parts = (this.getCSS(key) || '13px').split(/([a-zA-Z]+)/);
  const incr = (add ? 1 : -1) * (parts[1] === 'em' ? 0.1 : 1);
  return this.setCSSOverride(key, `${Number(parts[0]) + incr}${parts[1]}`);
}
```

`getCSS(key)` returns the computed value of `--jp-key` (the empty string
when unset, which is falsy, so `'13px'` is used).  `split(/([a-zA-Z]+)/)`
makes `parts[0]` the text before the first letter run and `parts[1]` that
letter run.  JS numbers are IEEE-754 binary64 doubles and are embedded
exactly: a finite double is the dyadic rational `m / 2^p`; `Number(...)`
rounds the decimal literal's exact value to the nearest double, ties to
even (`none` where JS would give `NaN` on such inputs); `+` rounds the
exact sum the same way; multiplying by `(add ? 1 : -1)` is an exact sign
flip.  Subnormal and overflow clamping are omitted: font-size magnitudes
stay far inside the normal range, where this model agrees with binary64.
The produced override value is kept as numeric part plus unit rather than
re-serialised. -/

/-- The `[a-zA-Z]` character class. -/
def isAlphaChar (c : Char) : Bool :=
  ('a' ≤ c && c ≤ 'z') || ('A' ≤ c && c ≤ 'Z')

/-- `s.split(/([a-zA-Z]+)/)`, restricted to the two entries
`_incrFontSize` reads: `parts[0]` (before the first letter run) and
`parts[1]` (the first letter run; `""` when the string has no letters,
where JS yields `undefined`). -/
def splitFontParts (s : String) : String × String :=
  (⟨s.toList.takeWhile (fun c => !(isAlphaChar c))⟩,
   ⟨(s.toList.dropWhile (fun c => !(isAlphaChar c))).takeWhile isAlphaChar⟩)

/-- The numeric value of a non-empty all-digit character run. -/
def digitsVal (l : List Char) : Option Nat :=
  if l = [] then none
  else if l.all Char.isDigit then
    some (l.foldl (fun n c => n * 10 + (c.toNat - 48)) 0)
  else none

/-- Split a character run at the first `'.'`, if any. -/
def splitDot (l : List Char) : List Char × Option (List Char) :=
  match l.dropWhile (· != '.') with
  | [] => (l.takeWhile (· != '.'), none)
  | _ :: rest => (l.takeWhile (· != '.'), some rest)

/-- The integer part, fraction digits and fraction length of an unsigned
decimal literal such as `13` or `1.25`. -/
def decParts (s : String) : Option (ℕ × ℕ × ℕ) :=
  match splitDot s.toList with
  | (a, none) => (digitsVal a).map (fun n => (n, 0, 0))
  | (a, some b) =>
    match digitsVal a, digitsVal b with
    | some n, some f => some (n, f, b.length)
    | _, _ => none

/-- A finite IEEE-754 binary64 double, embedded exactly as the dyadic
rational `m / 2^p`. -/
structure Dbl where
  m : ℤ
  p : ℕ
deriving DecidableEq, Repr

/-- The exact rational value of a double. -/
def Dbl.toRat (x : Dbl) : ℚ := (x.m : ℚ) / 2 ^ x.p

/-- Largest `j` with `d * 2^j ≤ n` (for `1 ≤ d ≤ n`), so the binary
magnitude of `n/d`.  Structural fuel keeps it kernel-computable; 2200
covers the whole binary64 exponent range. -/
def ilogUp : ℕ → ℕ → ℕ → ℕ
  | 0, _, _ => 0
  | fuel + 1, n, d => if d * 2 ≤ n then ilogUp fuel n (d * 2) + 1 else 0

/-- Smallest `j ≥ 1` with `d ≤ n * 2^j` (for `1 ≤ n < d`), so the binary
magnitude of `n/d` is `-j`. -/
def ilogDown : ℕ → ℕ → ℕ → ℕ
  | 0, _, _ => 1
  | fuel + 1, n, d => if d ≤ n * 2 then 1 else ilogDown fuel (n * 2) d + 1

/-- Round `a / b` (with `b ≥ 1`) to the nearest natural, ties to even. -/
def roundNE (a b : ℕ) : ℕ :=
  if b < 2 * (a % b) then a / b + 1
  else if 2 * (a % b) < b then a / b
  else if a / b % 2 = 0 then a / b else a / b + 1

/-- Round the positive rational `n / d` to the nearest binary64 double:
scale by the binary magnitude so the significand lies in `[2^52, 2^53)`
and round it to 53 bits, ties to even. -/
def roundPos (n d : ℕ) : Dbl :=
  let e : ℤ :=
    if d ≤ n then (ilogUp 2200 n d : ℤ) else -(ilogDown 2200 n d : ℤ)
  if e ≤ 52 then
    let p := (52 - e).toNat
    ⟨(roundNE (n * 2 ^ p) d : ℤ), p⟩
  else
    let t := (e - 52).toNat
    ⟨((roundNE n (d * 2 ^ t) * 2 ^ t : ℕ) : ℤ), 0⟩

/-- Round the rational `n / d` to the nearest binary64 double
(round-to-nearest, ties to even, is symmetric about zero). -/
def roundRat (n : ℤ) (d : ℕ) : Dbl :=
  if d = 0 then ⟨0, 0⟩
  else if 0 ≤ n then roundPos n.toNat d
  else ⟨-(roundPos (-n).toNat d).m, (roundPos (-n).toNat d).p⟩

/-- The JS literal `0.1`: the double nearest `1/10`. -/
def dTenth : Dbl := roundRat 1 10

/-- The JS literal `1`, exactly representable. -/
def dOne : Dbl := ⟨1, 0⟩

/-- Double negation (exact). -/
def dNeg (x : Dbl) : Dbl := ⟨-x.m, x.p⟩

/-- IEEE-754 binary64 addition: the exact sum of the two dyadic values,
rounded to the nearest double. -/
def dAdd (x y : Dbl) : Dbl :=
  roundRat (x.m * 2 ^ y.p + y.m * 2 ^ x.p) (2 ^ (x.p + y.p))

/-- JS `Number(...)` on unsigned decimal literals: the literal's exact
value, rounded to the nearest double. -/
def jsNumber (s : String) : Option Dbl :=
  (decParts s).map (fun x =>
    roundRat ((x.1 * 10 ^ x.2.2 + x.2.1 : ℕ) : ℤ) (10 ^ x.2.2))

/-- `(add ? 1 : -1) * incr`: multiplying a double by `±1` is exact. -/
def dFlip (add : Bool) (x : Dbl) : Dbl := if add then x else dNeg x

/-- The body of `_incrFontSize` after the split: `Number(parts[0])` plus
`(add ? 1 : -1) * (parts[1] === 'em' ? 0.1 : 1)`, all in binary64 double
arithmetic, paired with the unchanged unit `parts[1]`. -/
def incrFromParts (parts : String × String) (add : Bool) :
    Option (Dbl × String) :=
  (jsNumber parts.1).map (fun q =>
    (dAdd q (dFlip add (if parts.2 = "em" then dTenth else dOne)),
     parts.2))

/-- `ThemeManager._incrFontSize(key, add)`, on the current computed value
`cur` of the font-size variable (`""` when unset): the numeric part and
unit of the new override value. -/
def incrFontSizeStep (cur : String) (add : Bool) : Option (Dbl × String) :=
  incrFromParts (splitFontParts (if cur = "" then "13px" else cur)) add

/-- `ThemeManager.incrFontSize(key)`: `this._incrFontSize(key, true)`. -/
def incrFontSize (cur : String) : Option (Dbl × String) :=
  incrFontSizeStep cur true

/-- `ThemeManager.decrFontSize(key)`: `this._incrFontSize(key, false)`. -/
def decrFontSize (cur : String) : Option (Dbl × String) :=
  incrFontSizeStep cur false

theorem takeWhile_dropWhile_append {p : Char → Bool} :
    ∀ (a : List Char) (c : Char) (cs : List Char), (∀ x ∈ a, p x = true) →
    p c = false →
    (a ++ c :: cs).takeWhile p = a ∧ (a ++ c :: cs).dropWhile p = c :: cs := by
  intro a
  induction a with
  | nil =>
    intro c cs _ hc
    constructor
    · simpa using List.takeWhile_cons_of_neg (l := cs) (by simp [hc])
    · simpa using List.dropWhile_cons_of_neg (l := cs) (by simp [hc])
  | cons x xs ih =>
    intro c cs ha hc
    have hx : p x = true := ha x (List.mem_cons_self _ _)
    have hrec := ih c cs (fun y hy => ha y (List.mem_cons_of_mem _ hy)) hc
    constructor
    · rw [List.cons_append, List.takeWhile_cons_of_pos hx, hrec.1]
    · rw [List.cons_append, List.dropWhile_cons_of_pos hx, hrec.2]

/-- For a value written as numeric text followed by a letter-run unit,
the JS split picks out exactly those two parts. -/
theorem splitFontParts_eq (num unit : String)
    (hnum : ∀ c ∈ num.toList, isAlphaChar c = false)
    (hne : unit.toList ≠ [])
    (hunit : ∀ c ∈ unit.toList, isAlphaChar c = true) :
    splitFontParts (num ++ unit) = (num, unit) := by
  rcases hu : unit.toList with _ | ⟨c, cs⟩
  · exact absurd hu hne
  have hcs : ∀ x ∈ num.toList, (fun c => !(isAlphaChar c)) x = true := by
    intro x hx
    simp [hnum x hx]
  have hc : (fun c => !(isAlphaChar c)) c = false := by
    have := hunit c (by rw [hu]; exact List.mem_cons_self _ _)
    simp [this]
  have happ : (num ++ unit).toList = num.toList ++ c :: cs := by
    rw [show (num ++ unit).toList = num.toList ++ unit.toList from
      String.data_append num unit, hu]
  have hsplit := takeWhile_dropWhile_append num.toList c cs hcs hc
  unfold splitFontParts
  rw [happ, hsplit.1, hsplit.2]
  have htake : (c :: cs).takeWhile isAlphaChar = c :: cs := by
    rw [List.takeWhile_eq_self_iff]
    intro x hx
    exact hunit x (by rw [hu]; exact hx)
  rw [htake, ← hu]
  cases num; cases unit; rfl

theorem incrFontSizeStep_eq (cur num unitStr : String) (add : Bool)
    (d : Dbl) (hcur : ¬cur = "")
    (hsp : splitFontParts cur = (num, unitStr))
    (hq : jsNumber num = some d) :
    incrFontSizeStep cur add =
      some (dAdd d (dFlip add (if unitStr = "em" then dTenth else dOne)),
        unitStr) := by
  unfold incrFontSizeStep incrFromParts
  rw [if_neg hcur, hsp, hq]
  rfl

/-! ## Claim theorems -/

/-- Claim C1: every `HTMLViewer` constructed via its constructor (and hence
via `HTMLViewerFactory.createNewWidget`) has as its content an `IFrame`
created with sandbox enabled and with exactly one sandbox exception,
`allow-same-origin`; no operation of the viewer (update requests, renders)
ever changes this sandbox configuration. -/
theorem c1_htmlviewer_sandbox_invariant :
    HTMLViewer.createNewWidget = HTMLViewer.create ∧
    HTMLViewer.create.content.sandbox = true ∧
    HTMLViewer.create.content.exceptions = ["allow-same-origin"] ∧
    HTMLViewer.create.content.exceptions.length = 1 ∧
    ∀ v : HTMLViewer,
      ((HTMLViewer.onUpdateRequest v).content.sandbox = v.content.sandbox ∧
        (HTMLViewer.onUpdateRequest v).content.exceptions =
          v.content.exceptions) ∧
      ((HTMLViewer.renderModel v).content.sandbox = v.content.sandbox ∧
        (HTMLViewer.renderModel v).content.exceptions =
          v.content.exceptions) := by
  refine ⟨rfl, rfl, rfl, rfl, ?_⟩
  intro v
  refine ⟨?_, rfl, rfl⟩
  unfold HTMLViewer.onUpdateRequest
  by_cases h : v.renderPending <;> simp [h, HTMLViewer.renderModel]

/-- Claim C3, counterexample: with a `CSS.supports` oracle that accepts
everything, `validateCSS` still returns `false` on the key `"foo"`, because
no entry of `cssProps` occurs in that key — so validation is not delegated
entirely to `CSS.supports`. -/
theorem c3_validate_counterexample :
    validateCSS (fun _ _ => true) "foo" "bar" = false ∧
    cssPropFor "foo" = none := by
  constructor <;> decide

/-- Claim C3, amended: `validateCSS(key, value)` returns `true` iff some
element of `cssProps` is a substring of `key` and `CSS.supports(prop, value)`
holds for the first such element; when no `cssProps` entry occurs in the
key, it returns `false` without consulting `CSS.supports`. -/
theorem c3_validateCSS_characterisation
    (supports : String → String → Bool) (key val : String) :
    validateCSS supports key val = true ↔
      ∃ p, cssPropFor key = some p ∧ supports p val = true := by
  unfold validateCSS
  cases h : cssPropFor key <;> simp [h]

/-- Claim C5, counterexample: the retry-loop timer is `REQUEST_INTERVAL =
75` ms, which is not strictly less than 10 ms (and the render debounce is
`RENDER_TIMEOUT = 1000` ms), so the timers are not single-digit numbers of
milliseconds. -/
theorem c5_single_digit_counterexample :
    ¬(REQUEST_INTERVAL < 10 ∧ RENDER_TIMEOUT < 10) := by
  decide

/-- Claim C5, amended: the settings-loading retry loop is driven by a 75 ms
timer and the render debounce by a 1000 ms timer — fixed two- and
four-digit-millisecond constants, both at least 10 ms. -/
theorem c5_timer_constants :
    REQUEST_INTERVAL = 75 ∧ RENDER_TIMEOUT = 1000 ∧
    10 ≤ REQUEST_INTERVAL ∧ 10 ≤ RENDER_TIMEOUT := by
  decide

/-- Erasing distributes over appended dictionaries. -/
theorem derase_append {α : Type} (d1 d2 : Dict α) (k : String) :
    derase (d1 ++ d2) k = derase d1 k ++ derase d2 k :=
  List.filter_append _ _

/-- Claim C8: `ThemeManager.register(theme)` throws exactly when a theme of
the same name is already registered; on success it adds exactly that theme
under its name, and disposing the returned disposable removes exactly that
entry, so registering a fresh name and then disposing restores the
registered-theme map to its prior value. -/
theorem c8_register_roundtrip (themes : Dict Theme) (t : Theme) :
    (register themes t = none ↔ (dlookup themes t.name).isSome = true) ∧
    (dlookup themes t.name = none →
      ∃ m, register themes t = some m ∧
        dlookup m t.name = some t ∧
        (∀ k, k ≠ t.name → dlookup m k = dlookup themes k) ∧
        registerDispose m t.name = themes) := by
  constructor
  · unfold register
    cases h : dlookup themes t.name <;> simp
  · intro h
    refine ⟨dinsert themes t.name t, ?_, dlookup_dinsert_self _ _ _, ?_, ?_⟩
    · unfold register
      rw [h]
    · intro k hk
      exact dlookup_dinsert_ne themes t.name k t (Ne.symm hk)
    · unfold registerDispose
      rw [dinsert_of_absent themes t.name t h, derase_append,
        derase_of_absent themes t.name h]
      simp [derase]

/-- Claim C8, witness: registering the theme `dark` into a registry that
only holds `light` succeeds and disposing restores the registry. -/
theorem c8_register_roundtrip_witness :
    dlookup [("light", (⟨"light", true, ["light.css"]⟩ : Theme))] "dark" =
      none ∧
    ∃ m, register [("light", (⟨"light", true, ["light.css"]⟩ : Theme))]
        ⟨"dark", false, ["dark.css"]⟩ = some m ∧
      dlookup m "dark" = some ⟨"dark", false, ["dark.css"]⟩ ∧
      (∀ k, k ≠ "dark" → dlookup m k =
        dlookup [("light", (⟨"light", true, ["light.css"]⟩ : Theme))] k) ∧
      registerDispose m "dark" =
        [("light", (⟨"light", true, ["light.css"]⟩ : Theme))] :=
  ⟨by decide,
    (c8_register_roundtrip [("light", ⟨"light", true, ["light.css"]⟩)]
      ⟨"dark", false, ["dark.css"]⟩).2 (by decide)⟩

/-- Claim C6: `_loadTheme` swaps stylesheets rather than accumulating them:
every link element previously tracked in `_links` is removed from the
document, the `_links` list is emptied, and after the new theme's CSS loads
the `_links` list holds exactly the new theme's stylesheets (in order,
with their resolved hrefs).  The hypothesis states that all tracked link
elements were created by the manager's own fresh counter. -/
theorem c6_loadTheme_swaps_links (resolve : String → String)
    (css : List String) (st : LinkState)
    (hwf : ∀ l ∈ st.links, l.id < st.nextId) :
    (loadThemeLinks resolve css st).links.map LinkElem.href =
      css.map resolve ∧
    ∀ l ∈ st.links, l ∉ (loadThemeLinks resolve css st).doc := by
  constructor
  · show (css.foldl (fun s p => loadCSS resolve p s)
      ⟨st.nextId, st.doc.filter (fun l => !(st.links.contains l)), []⟩).links.map
        LinkElem.href = css.map resolve
    rw [foldl_loadCSS_links]
    simp
  · intro l hl hmem
    have hd := foldl_loadCSS_doc_mem resolve css
      ⟨st.nextId, st.doc.filter (fun l => !(st.links.contains l)), []⟩ l hmem
    rcases hd with hfil | hid
    · have := (List.mem_filter.mp hfil).2
      rw [Bool.not_eq_true', ← Bool.not_eq_true] at this
      exact this (List.elem_iff.mpr hl)
    · exact absurd hid (Nat.not_le.mpr (hwf l hl))

/-- Claim C6, witness: swapping from two tracked stylesheets to a theme
with stylesheets `a.css` and `b.css` leaves exactly those two tracked and
removes the old ones from the document. -/
theorem c6_loadTheme_swaps_links_witness :
    (∀ l ∈ ([⟨1, "y"⟩, ⟨4, "z"⟩] : List LinkElem), l.id < 5) ∧
    ((loadThemeLinks (fun p => p) ["a.css", "b.css"]
        ⟨5, [⟨0, "x"⟩, ⟨1, "y"⟩, ⟨4, "z"⟩], [⟨1, "y"⟩, ⟨4, "z"⟩]⟩).links.map
      LinkElem.href = ["a.css", "b.css"].map (fun p => p) ∧
    ∀ l ∈ ([⟨1, "y"⟩, ⟨4, "z"⟩] : List LinkElem),
      l ∉ (loadThemeLinks (fun p => p) ["a.css", "b.css"]
        ⟨5, [⟨0, "x"⟩, ⟨1, "y"⟩, ⟨4, "z"⟩], [⟨1, "y"⟩, ⟨4, "z"⟩]⟩).doc) :=
  ⟨by decide,
    c6_loadTheme_swaps_links (fun p => p) ["a.css", "b.css"]
      ⟨5, [⟨0, "x"⟩, ⟨1, "y"⟩, ⟨4, "z"⟩], [⟨1, "y"⟩, ⟨4, "z"⟩]⟩ (by decide)⟩

/-- Claim C7: re-rendering is debounced — after the context is ready, the
activity monitor emits (and hence a re-render is triggered) only at times
preceded by a full `RENDER_TIMEOUT` of ceased change activity — and each
render swaps a freshly created blob object URL into the iframe: the new
url is the freshly issued handle, differs from the currently displayed
one, and the handle counter advances so no later render reuses it. -/
theorem c7_debounced_render :
    (∀ es : List Nat, es.Pairwise (· < ·) → ∀ t ∈ fireTimes es,
      ∃ e ∈ es, t = e + RENDER_TIMEOUT ∧ ∀ e' ∈ es, ¬(e < e' ∧ e' < t)) ∧
    (∀ v : HTMLViewer, (∀ u, v.content.url = some u → u < v.nextUrl) →
      (HTMLViewer.renderModel v).content.url = some v.nextUrl ∧
      (HTMLViewer.renderModel v).content.url ≠ v.content.url ∧
      (HTMLViewer.renderModel v).nextUrl = v.nextUrl + 1) := by
  constructor
  · exact fireTimes_quiet
  · intro v hwf
    refine ⟨rfl, ?_, rfl⟩
    intro heq
    have : v.content.url = some v.nextUrl := by
      rw [← heq]; rfl
    exact absurd (hwf v.nextUrl this) (lt_irrefl _)

/-- Claim C7, witness: for change times 0, 100, 2000 the monitor fires at
1100 — a point preceded by 1000 ms of quiet — and rendering the freshly
constructed viewer swaps in object URL handle 0. -/
theorem c7_debounced_render_witness :
    ([0, 100, 2000] : List Nat).Pairwise (· < ·) ∧
    1100 ∈ fireTimes [0, 100, 2000] ∧
    (∀ u, HTMLViewer.create.content.url = some u →
      u < HTMLViewer.create.nextUrl) ∧
    (∃ e ∈ ([0, 100, 2000] : List Nat), 1100 = e + RENDER_TIMEOUT ∧
      ∀ e' ∈ ([0, 100, 2000] : List Nat), ¬(e < e' ∧ e' < 1100)) ∧
    (HTMLViewer.renderModel HTMLViewer.create).content.url =
      some HTMLViewer.create.nextUrl ∧
    (HTMLViewer.renderModel HTMLViewer.create).content.url ≠
      HTMLViewer.create.content.url ∧
    (HTMLViewer.renderModel HTMLViewer.create).nextUrl =
      HTMLViewer.create.nextUrl + 1 :=
  ⟨by decide, by decide, fun u h => Option.noConfusion h,
    c7_debounced_render.1 [0, 100, 2000] (by decide) 1100 (by decide),
    c7_debounced_render.2 HTMLViewer.create
      (fun u h => Option.noConfusion h)⟩

/-- Claim C2, counterexample: for a theme that is never registered,
after `REQUEST_THRESHOLD` (= 20) counted requests the loop has not yet
stopped — it is still scheduling retries — and it takes a 21st counted
request (which pushes the counter past the threshold) to give up; so
`_loadSettings` does not make at most `REQUEST_THRESHOLD` counted requests. -/
theorem c2_threshold_counterexample :
    runLoad [] "dflt" "foo" REQUEST_THRESHOLD ⟨[], false, false⟩ = none ∧
    runLoad [] "dflt" "foo" (REQUEST_THRESHOLD + 1) ⟨[], false, false⟩ =
      some (⟨[], false, false⟩, LoadResult.themeError) := by
  constructor <;> decide

/-- Claim C2, amended: the settings-loading retry loop terminates for every
requested theme name, making at most `REQUEST_THRESHOLD + 1` (= 21) counted
requests: starting from a fresh counter with no outstanding promise, after
`REQUEST_THRESHOLD` requests it is still retrying, and on the next request
the counter exceeds the threshold, so it stops retrying that theme and
either loads the default fallback theme (when registered) or reports an
error; in the terminating cases the per-theme request counter is
deleted. -/
theorem c2_loadSettings_terminates (themes : Dict Theme)
    (fallback theme : String) (s : LoadState)
    (hth : dlookup themes theme = none) (ho : s.outstanding = false)
    (hreq : dlookup s.requests theme = none) :
    runLoad themes fallback theme REQUEST_THRESHOLD s = none ∧
    ∃ s', runLoad themes fallback theme (REQUEST_THRESHOLD + 1) s =
        some (s', if (dlookup themes fallback).isSome then
          LoadResult.loadFallback fallback else LoadResult.themeError) ∧
      dlookup s'.requests theme = none := by
  constructor
  · refine runLoad_still_running themes fallback theme hth
      REQUEST_THRESHOLD s ho ?_
    rw [hreq]
    simp
  · refine runLoad_gives_up themes fallback theme hth
      (REQUEST_THRESHOLD + 1) s ho (by omega) ?_
    rw [hreq]
    simp

/-- Claim C2, witness: a theme `foo` that is never registered, with no
fallback registered either, exhausts its 21 requests and ends in the error
branch with its counter deleted. -/
theorem c2_loadSettings_terminates_witness :
    dlookup ([] : Dict Theme) "foo" = none ∧
    (⟨[], false, false⟩ : LoadState).outstanding = false ∧
    dlookup ([] : Dict Nat) "foo" = none ∧
    (runLoad [] "dflt" "foo" REQUEST_THRESHOLD ⟨[], false, false⟩ = none ∧
    ∃ s', runLoad [] "dflt" "foo" (REQUEST_THRESHOLD + 1) ⟨[], false, false⟩ =
        some (s', if (dlookup ([] : Dict Theme) "dflt").isSome then
          LoadResult.loadFallback "dflt" else LoadResult.themeError) ∧
      dlookup s'.requests "foo" = none) :=
  ⟨rfl, rfl, rfl,
    c2_loadSettings_terminates [] "dflt" "foo" ⟨[], false, false⟩
      rfl rfl rfl⟩

/-- Claim C4, counterexample: for a theme that is never registered the
loop does not give up after 3 retry steps — it performs 20 of them (one
per counted request below the threshold), so it is not a 3-step
retry/timeout loop. -/
theorem c4_three_step_counterexample :
    3 < countRetries [] "dflt" "bar" (REQUEST_THRESHOLD + 1)
      ⟨[], false, false⟩ := by
  decide

/-- Claim C4, amended: the theme-loading state machine is a
`REQUEST_THRESHOLD`-step (= 20-step) retry/timeout loop: for any theme
name that is never registered, starting from a fresh counter with no
outstanding promise, the loop performs at most `REQUEST_THRESHOLD` retry
steps — and exactly that many when allowed to run to completion — before
giving up and taking the timeout branch. -/
theorem c4_retry_steps_bound (themes : Dict Theme)
    (fallback theme : String) (s : LoadState)
    (hth : dlookup themes theme = none) (ho : s.outstanding = false)
    (hreq : dlookup s.requests theme = none) :
    (∀ n, countRetries themes fallback theme n s ≤ REQUEST_THRESHOLD) ∧
    countRetries themes fallback theme (REQUEST_THRESHOLD + 1) s =
      REQUEST_THRESHOLD := by
  have hmin := countRetries_min themes fallback theme hth
  constructor
  · intro n
    rw [hmin n s ho, hreq]
    simp
  · rw [hmin _ s ho, hreq]
    simp

/-- Claim C4, witness: the unregistered theme `bar` with fresh counter
performs at most 20 retry steps, and exactly 20 within 21 invocations. -/
theorem c4_retry_steps_bound_witness :
    dlookup ([] : Dict Theme) "bar" = none ∧
    (⟨[], false, false⟩ : LoadState).outstanding = false ∧
    dlookup ([] : Dict Nat) "bar" = none ∧
    ((∀ n, countRetries [] "dflt" "bar" n ⟨[], false, false⟩ ≤
      REQUEST_THRESHOLD) ∧
    countRetries [] "dflt" "bar" (REQUEST_THRESHOLD + 1) ⟨[], false, false⟩ =
      REQUEST_THRESHOLD) :=
  ⟨rfl, rfl, rfl,
    c4_retry_steps_bound [] "dflt" "bar" ⟨[], false, false⟩ rfl rfl rfl⟩

/-- Claim C9: after `loadCSSOverrides`, for every key in the union of the
old and new override maps, the CSS variable `--jp-key` holds the new value
exactly when the new overrides map the key to a truthy (non-empty) value
that passes `validateCSS`, and the variable is removed otherwise; yet the
stored `_overrides` field becomes the entire new overrides map, including
entries that failed validation and were removed from the DOM. -/
theorem c9_loadCSSOverrides_pointwise (supports : String → String → Bool)
    (newO : Dict String) (st : OverrideState) (key : String)
    (hk : key ∈ st.overrides.map Prod.fst ∨ key ∈ newO.map Prod.fst) :
    (loadCSSOverrides supports newO st).overrides = newO ∧
    ∀ v : String,
      dlookup (loadCSSOverrides supports newO st).style ("--jp-" ++ key) =
        some v ↔
      (dlookup newO key = some v ∧ v ≠ "" ∧
        validateCSS supports key v = true) := by
  have hkeys : key ∈ spreadKeys st.overrides newO := by
    rw [spreadKeys, mem_dedupFirst, List.mem_append]
    exact hk
  have hstyle :
      dlookup (loadCSSOverrides supports newO st).style ("--jp-" ++ key) =
        expectedOverride supports newO key :=
    foldl_applyOverrideKey_mem supports newO key
      (spreadKeys st.overrides newO) st.style
      (nodup_dedupFirst _) hkeys
  refine ⟨rfl, ?_⟩
  intro v
  rw [hstyle]
  unfold expectedOverride
  cases h : dlookup newO key with
  | none => simp
  | some v0 =>
    by_cases hv : v0 = ""
    · simp only [hv, if_pos rfl]
      constructor
      · intro h'; cases h'
      · rintro ⟨hv', hne, _⟩
        exact absurd (Option.some.inj hv') (by simpa using hne.symm)
    · simp only [if_neg hv]
      by_cases hval : validateCSS supports key v0
      · simp only [hval, if_pos rfl]
        constructor
        · intro h'
          rw [← Option.some.inj h']
          exact ⟨rfl, hv, hval⟩
        · rintro ⟨hv', _, _⟩
          rw [Option.some.inj hv']
          simp
      · simp only [hval,
          if_neg (by simp [hval] : ¬ validateCSS supports key v0 = true)]
        constructor
        · intro h'; cases h'
        · rintro ⟨hv', _, hval'⟩
          rw [← Option.some.inj hv'] at hval'
          exact absurd hval' (by simp [hval])

/-- Claim C9, witness: with an accept-all `CSS.supports`, a new override
map carrying a valid `ui-font-size1` entry and an invalid `bad` entry
(no CSS property corresponds to it), the variable for `ui-font-size1`
is set while the one for `bad` is not — yet `bad` stays in the stored
overrides map. -/
theorem c9_loadCSSOverrides_pointwise_witness :
    ("bad" ∈ ([("old-color", "red")] : Dict String).map Prod.fst ∨
      "bad" ∈ ([("ui-font-size1", "1em"), ("bad", "v")] :
        Dict String).map Prod.fst) ∧
    ((loadCSSOverrides (fun _ _ => true)
        [("ui-font-size1", "1em"), ("bad", "v")]
        ⟨[("old-color", "red")], [("--jp-old-color", "red")]⟩).overrides =
      [("ui-font-size1", "1em"), ("bad", "v")] ∧
    ∀ v : String,
      dlookup (loadCSSOverrides (fun _ _ => true)
          [("ui-font-size1", "1em"), ("bad", "v")]
          ⟨[("old-color", "red")], [("--jp-old-color", "red")]⟩).style
        ("--jp-" ++ "bad") = some v ↔
      (dlookup ([("ui-font-size1", "1em"), ("bad", "v")] : Dict String)
          "bad" = some v ∧ v ≠ "" ∧
        validateCSS (fun _ _ => true) "bad" v = true)) :=
  ⟨by decide,
    c9_loadCSSOverrides_pointwise (fun _ _ => true)
      [("ui-font-size1", "1em"), ("bad", "v")]
      ⟨[("old-color", "red")], [("--jp-old-color", "red")]⟩ "bad"
      (by decide)⟩

/-- Claim C10, counterexample: in binary64 double arithmetic the `em`
increment is not exactly 0.1.  For current value `1.1em`, `Number('1.1')`
is the double `4953959590107546 / 2^52` and `incrFontSize` produces the
double `5404319552844596 / 2^52` (JS prints it `1.2000000000000002`),
whose difference from the parsed current value is not `1/10` — nor is its
difference from the decimal `1.1` itself. -/
theorem c10_exact_increment_counterexample :
    jsNumber "1.1" = some ⟨4953959590107546, 52⟩ ∧
    incrFontSize "1.1em" = some (⟨5404319552844596, 52⟩, "em") ∧
    Dbl.toRat ⟨5404319552844596, 52⟩ ≠
      Dbl.toRat ⟨4953959590107546, 52⟩ + 1 / 10 ∧
    Dbl.toRat ⟨5404319552844596, 52⟩ ≠ 11 / 10 + 1 / 10 := by
  refine ⟨by decide, by decide, ?_, ?_⟩ <;>
    · unfold Dbl.toRat
      norm_num

/-- Claim C10, amended: `incrFontSize`/`decrFontSize` change the numeric
part of the current font-size value by IEEE-754 binary64 addition of
±0.1 (that is, ± the double nearest 1/10) when the unit is `em` and of
±1 for any other unit — the exact sum rounded to the nearest double,
ties to even, which need not change the value by exactly 0.1 — keeping
the unit unchanged; when the CSS variable has no current value (`getCSS`
returns the empty string), the computation starts from the default
`13px`, and because 13 and 13 ± 1 are exactly representable this gives
exactly `14px` and `12px`.  The hypotheses say the current value is a
number (in the unsigned decimal form `jsNumber` models) followed by a
letter-run unit. -/
theorem c10_font_size_increment (num unitStr : String) (d : Dbl)
    (hnum : ∀ c ∈ num.toList, isAlphaChar c = false)
    (hne : unitStr.toList ≠ [])
    (hunit : ∀ c ∈ unitStr.toList, isAlphaChar c = true)
    (hq : jsNumber num = some d) :
    incrFontSize (num ++ unitStr) =
      some (dAdd d (if unitStr = "em" then dTenth else dOne), unitStr) ∧
    decrFontSize (num ++ unitStr) =
      some (dAdd d (dNeg (if unitStr = "em" then dTenth else dOne)),
        unitStr) ∧
    incrFontSize "" = some (⟨7881299347898368, 49⟩, "px") ∧
    Dbl.toRat ⟨7881299347898368, 49⟩ = 14 ∧
    decrFontSize "" = some (⟨6755399441055744, 49⟩, "px") ∧
    Dbl.toRat ⟨6755399441055744, 49⟩ = 12 := by
  have hne' : ¬(num ++ unitStr = "") := by
    intro h
    apply hne
    have hd : (num ++ unitStr).toList = [] := by rw [h]; rfl
    have hd2 : num.toList ++ unitStr.toList = ([] : List Char) := by
      rw [show num.toList ++ unitStr.toList = (num ++ unitStr).toList from
        (String.data_append num unitStr).symm, hd]
    exact (List.append_eq_nil.mp hd2).2
  have hsplit := splitFontParts_eq num unitStr hnum hne hunit
  refine ⟨?_, ?_, by decide, ?_, by decide, ?_⟩
  · show incrFontSizeStep (num ++ unitStr) true = _
    rw [incrFontSizeStep_eq (num ++ unitStr) num unitStr true d hne'
      hsplit hq]
    rfl
  · show incrFontSizeStep (num ++ unitStr) false = _
    rw [incrFontSizeStep_eq (num ++ unitStr) num unitStr false d hne'
      hsplit hq]
    rfl
  · unfold Dbl.toRat
    norm_num
  · unfold Dbl.toRat
    norm_num

/-- Claim C10, witness: for the current value `2em` (2 is an exact
double) the increment is the double addition of 0.1 and the unit stays
`em`; with no current value the default `13px` steps to exactly `14px`
and `12px`. -/
theorem c10_font_size_increment_witness :
    (∀ c ∈ ("2" : String).toList, isAlphaChar c = false) ∧
    ("em" : String).toList ≠ [] ∧
    (∀ c ∈ ("em" : String).toList, isAlphaChar c = true) ∧
    jsNumber "2" = some ⟨4503599627370496, 51⟩ ∧
    (incrFontSize ("2" ++ "em") =
      some (dAdd ⟨4503599627370496, 51⟩
        (if ("em" : String) = "em" then dTenth else dOne), "em") ∧
    decrFontSize ("2" ++ "em") =
      some (dAdd ⟨4503599627370496, 51⟩
        (dNeg (if ("em" : String) = "em" then dTenth else dOne)), "em") ∧
    incrFontSize "" = some (⟨7881299347898368, 49⟩, "px") ∧
    Dbl.toRat ⟨7881299347898368, 49⟩ = 14 ∧
    decrFontSize "" = some (⟨6755399441055744, 49⟩, "px") ∧
    Dbl.toRat ⟨6755399441055744, 49⟩ = 12) :=
  ⟨by decide, by decide, by decide, by decide,
    c10_font_size_increment "2" "em" ⟨4503599627370496, 51⟩ (by decide)
      (by decide) (by decide) (by decide)⟩

end JupyterLab
